import Mathlib

/-!
Shallow embedding of the cargeek-frontend streaming ingestion pipeline:
the SSE envelope decoder and agent-result reducer
(src/lib/utils/agent-data-parser.ts), the raw-event dispatch used by the
chat interface and dashboard components, the two stream-proxy POST routes
(src/app/vehicle/page.tsx cargeek-stream route and
src/app/api/vehicle-stream/route.ts), and the proxy transform stream.

JavaScript strings handled character-wise are modelled as `List Char`;
timestamps (`new Date().toISOString()`) as a `Nat` clock value supplied by
the caller; `JSON.parse` as an abstract `List Char → Option RawEnvelope`
parameter where `none` models a thrown syntax error; JS `null`/`undefined`
payloads as `Option`. Handlers additionally return the number of
`notifyListeners` calls they perform.
-/

namespace CargeekFrontend

/-- JS whitespace predicate used by `String.prototype.trim`. -/
def jsWs (c : Char) : Bool := c.isWhitespace

/-- Model of `s.trim()`: drop whitespace from both ends. -/
def jsTrim (s : List Char) : List Char :=
  ((s.dropWhile jsWs).reverse.dropWhile jsWs).reverse

/-- The SSE field marker the decoder strips. -/
def dataMarker : List Char := ("data: ").toList

/-- Model of the marker-stripping step of `parseStreamingEvent`:
`if (eventData.startsWith('data: ')) cleanData = eventData.substring(6)`. -/
def stripDataMarker (s : List Char) : List Char :=
  if dataMarker.isPrefixOf s then s.drop 6 else s

/-- Result object attached to an `agent_complete` event or stored in a
payload slot; `agent_type` is the discriminant the type guards
(`isListingsResult` etc.) inspect, `content` stands for the remaining
opaque fields. -/
structure AgentResult where
  agent_type : String
  content : String
deriving DecidableEq

/-- The `event.data` record of an `agent_complete` streaming event
(`AgentCompleteEvent.data` in the source): `result` is `none` when the
wire event carried no result (JS `undefined`). -/
structure AgentCompleteData where
  agent_type : String
  agent_id : String
  success : Bool
  result : Option AgentResult
deriving DecidableEq

/-- Payload carried by a decoded wire envelope, as read by the two
dispatch handlers. -/
inductive EnvPayload where
  | spawnInfo (agent : String)
  | completeInfo (e : AgentCompleteData)
  | otherInfo
deriving DecidableEq

/-- A decoded streaming envelope as returned by `JSON.parse`: a `type`
discriminant plus a payload. -/
structure RawEnvelope where
  type : String
  payload : EnvPayload
deriving DecidableEq

/-- Model of `AgentDataParser.parseStreamingEvent`.  Strips the
`data: ` marker, returns `none` for an empty/whitespace-only body or the
literal `[DONE]`, and otherwise returns whatever `JSON.parse` produces
(`none` modelling a caught parse exception).  No discriminant check is
performed here. -/
def parseStreamingEvent (jsonParse : List Char → Option RawEnvelope)
    (eventData : List Char) : Option RawEnvelope :=
  let cleanData := stripDataMarker eventData
  if jsTrim cleanData = [] ∨ cleanData = ("[DONE]").toList then none
  else jsonParse cleanData

/-- The `AgentResults` aggregate of `AgentDataParser`. -/
structure AgentResults where
  listings : Option AgentResult
  research : Option AgentResult
  sentiment : Option AgentResult
  media : Option AgentResult
  total_agents : Nat
  completed_agents : Nat
  active_agents : List String
  last_updated : Nat
deriving DecidableEq

/-- The aggregate built by the `AgentDataParser` constructor (and by
`reset`): all slots empty, zero counters, no active agents. -/
def initialResults (now : Nat) : AgentResults :=
  { listings := none, research := none, sentiment := none, media := none
    total_agents := 0, completed_agents := 0
    active_agents := [], last_updated := now }

/-- Model of `AgentDataParser.handleAgentSpawn`.  Adds the agent kind and
bumps `total_agents` only when not already active, then unconditionally
stamps `last_updated` and calls `notifyListeners` once (the second
component counts notifications). -/
def handleAgentSpawn (now : Nat) (agent : String) (s : AgentResults) :
    AgentResults × Nat :=
  let s1 :=
    if agent ∈ s.active_agents then s
    else { s with active_agents := s.active_agents ++ [agent]
                  total_agents := s.total_agents + 1 }
  ({ s1 with last_updated := now }, 1)

/-- The slot-write chain of `handleAgentComplete`: store the result into
the slot selected by the type guards on `result.agent_type`; an
unrecognized kind stores nothing. -/
def storeResult (r : AgentResult) (s : AgentResults) : AgentResults :=
  if r.agent_type = "listings" then { s with listings := some r }
  else if r.agent_type = "research" then { s with research := some r }
  else if r.agent_type = "sentiment" then { s with sentiment := some r }
  else if r.agent_type = "media" then { s with media := some r }
  else s

/-- Model of `AgentDataParser.handleAgentComplete`.  On `!success ||
!result` it returns early without touching the aggregate or notifying;
otherwise it filters the event's `agent_type` out of `active_agents`,
increments `completed_agents`, stores the result by its own
`agent_type`, stamps `last_updated`, and notifies once. -/
def handleAgentComplete (now : Nat) (e : AgentCompleteData)
    (s : AgentResults) : AgentResults × Nat :=
  match e.result with
  | none => (s, 0)
  | some r =>
    if e.success = false then (s, 0)
    else
      let s1 := { s with
        active_agents := s.active_agents.filter (fun a => a != e.agent_type)
        completed_agents := s.completed_agents + 1 }
      let s2 := storeResult r s1
      ({ s2 with last_updated := now }, 1)

/-- Raw payload of one `agent_data` item in a LangGraph state snapshot:
`none` models a JS `null`/`undefined` `data` field (on which the
per-kind parse helpers throw). -/
structure AgentDataItem where
  data : Option AgentResult
deriving DecidableEq

/-- The `CarGeekState` snapshot shape consumed by `parseStateData`:
`agent_data` entries in `Object.entries` order plus the active list. -/
structure CarGeekState where
  agent_data : List (String × List AgentDataItem)
  active_agents : List String
deriving DecidableEq

/-- The four recognized agent kinds. -/
def fourKinds : List String := ["listings", "research", "sentiment", "media"]

/-- Model of `parseListingsData`: normalizes the raw payload into a
listings result (field defaulting collapsed into the opaque content). -/
def parseListingsData (d : AgentResult) : AgentResult :=
  { agent_type := "listings", content := d.content }

/-- Model of `parseResearchData`. -/
def parseResearchData (d : AgentResult) : AgentResult :=
  { agent_type := "research", content := d.content }

/-- Model of `parseSentimentData`. -/
def parseSentimentData (d : AgentResult) : AgentResult :=
  { agent_type := "sentiment", content := d.content }

/-- Model of `parseMediaData`. -/
def parseMediaData (d : AgentResult) : AgentResult :=
  { agent_type := "media", content := d.content }

/-- The switch statement of `parseStateData`: write the parsed payload
into the slot named by the snapshot entry key; unknown keys fall
through. -/
def storeSnapshotData (agentType : String) (d : AgentResult)
    (r : AgentResults) : AgentResults :=
  if agentType = "listings" then { r with listings := some (parseListingsData d) }
  else if agentType = "research" then { r with research := some (parseResearchData d) }
  else if agentType = "sentiment" then { r with sentiment := some (parseSentimentData d) }
  else if agentType = "media" then { r with media := some (parseMediaData d) }
  else r

/-- One iteration of the `Object.entries(state.agent_data).forEach` loop
of `parseStateData`: for a non-empty item list take the latest item; a
recognized kind with `null` data throws inside the try block (caught, so
neither slot nor counter changes), otherwise the slot switch runs and
`completed_agents` is incremented — also for unrecognized keys. -/
def applySnapshotEntry (r : AgentResults) (agentType : String)
    (dataItems : List AgentDataItem) : AgentResults :=
  if dataItems.length > 0 then
    match (dataItems.getLastD { data := none }).data with
    | some d =>
      let r1 := storeSnapshotData agentType d r
      { r1 with completed_agents := r1.completed_agents + 1 }
    | none =>
      if agentType ∈ fourKinds then r
      else { r with completed_agents := r.completed_agents + 1 }
  else r

/-- The fresh `results` object `parseStateData` starts from: empty
slots, zero counters, active agents copied wholesale from the
snapshot. -/
def snapshotInit (now : Nat) (st : CarGeekState) : AgentResults :=
  { listings := none, research := none, sentiment := none, media := none
    total_agents := 0, completed_agents := 0
    active_agents := st.active_agents, last_updated := now }

/-- The `Object.entries(state.agent_data).forEach` loop of
`parseStateData`, folded over the fresh aggregate. -/
def snapshotFold (now : Nat) (st : CarGeekState) : AgentResults :=
  st.agent_data.foldl (fun r pr => applySnapshotEntry r pr.1 pr.2)
    (snapshotInit now st)

/-- Model of `AgentDataParser.parseStateData`.  Builds a fresh result
from the snapshot alone: active agents copied wholesale, slots and
`completed_agents` from the `agent_data` entries, and finally
`total_agents := completed_agents + active_agents.length`.  It performs
no notification. -/
def parseStateData (now : Nat) (st : CarGeekState) : AgentResults :=
  let results := snapshotFold now st
  { results with
      total_agents := results.completed_agents + results.active_agents.length }

/-- An envelope applied to the reducer: a spawn, a completion, or a
state snapshot. -/
inductive AgentEvent where
  | spawn (agent : String)
  | complete (e : AgentCompleteData)
  | snapshot (st : CarGeekState)
deriving DecidableEq

/-- Apply one event to the aggregate, returning the new aggregate and
the number of `notifyListeners` calls triggered.  A snapshot replaces
the aggregate by `parseStateData`'s output (as the dashboard components
do with the returned value) and triggers no hub notification. -/
def applyEventN (now : Nat) (e : AgentEvent) (s : AgentResults) :
    AgentResults × Nat :=
  match e with
  | .spawn a => handleAgentSpawn now a s
  | .complete d => handleAgentComplete now d s
  | .snapshot st => (parseStateData now st, 0)

/-- The state part of `applyEventN`. -/
def applyEvent (now : Nat) (e : AgentEvent) (s : AgentResults) :
    AgentResults :=
  (applyEventN now e s).1

/-- The `if (streamEvent) { ... }` guard of the component dispatch: a
`null` envelope is ignored without mutation or notification. -/
def processEnvelope (now : Nat) (env : Option AgentEvent)
    (s : AgentResults) : AgentResults × Nat :=
  match env with
  | none => (s, 0)
  | some e => applyEventN now e s

/-- The dispatch switch of the chat interface / dashboard `onData`
handlers: only the `agent_spawn` and `agent_complete` discriminants
reach a handler; every other envelope type is ignored.  An envelope
whose payload does not fit its discriminant would throw before any
mutation (caught by the surrounding try), modelled as no event. -/
def envelopeToEvent (env : RawEnvelope) : Option AgentEvent :=
  if env.type = "agent_spawn" then
    match env.payload with
    | .spawnInfo a => some (.spawn a)
    | _ => none
  else if env.type = "agent_complete" then
    match env.payload with
    | .completeInfo e => some (.complete e)
    | _ => none
  else none

/-- Full raw-line path of the components' `onData` handlers: decode the
line, then dispatch the recognized event kinds to the reducer. -/
def dispatchStreamEvent (now : Nat)
    (jsonParse : List Char → Option RawEnvelope) (raw : List Char)
    (s : AgentResults) : AgentResults × Nat :=
  match parseStreamingEvent jsonParse raw with
  | none => (s, 0)
  | some env => processEnvelope now (envelopeToEvent env) s

/-- Run a timed event trace through the reducer. -/
def runEvents (s : AgentResults) (evs : List (Nat × AgentEvent)) :
    AgentResults :=
  evs.foldl (fun acc te => applyEvent te.1 te.2 acc) s

/-- An event is safe in a state when any successful completion it
carries names a currently active agent kind. -/
def safeEvent (s : AgentResults) (e : AgentEvent) : Bool :=
  match e with
  | .complete d =>
    !d.success || d.result.isNone || s.active_agents.contains d.agent_type
  | _ => true

/-- A trace is safe when every event is safe in the state it is applied
to. -/
def safeTrace (s : AgentResults) (evs : List (Nat × AgentEvent)) : Bool :=
  match evs with
  | [] => true
  | te :: rest => safeEvent s te.2 && safeTrace (applyEvent te.1 te.2 s) rest

/-- Read one of the four payload slots by agent kind. -/
def slotOf (s : AgentResults) (k : String) : Option AgentResult :=
  if k = "listings" then s.listings
  else if k = "research" then s.research
  else if k = "sentiment" then s.sentiment
  else if k = "media" then s.media
  else none

/-- Number of populated payload slots. -/
def countPopulated (s : AgentResults) : Nat :=
  (if s.listings.isSome then 1 else 0) + (if s.research.isSome then 1 else 0)
  + (if s.sentiment.isSome then 1 else 0) + (if s.media.isSome then 1 else 0)

/-- An HTTP response as constructed by the two proxy route handlers
(status, `Content-Type` header, body). -/
structure HttpResponse where
  status : Nat
  contentType : String
  body : String
deriving DecidableEq

/-- Model of `Response.ok` for the upstream fetch: status in the
2xx range. -/
def responseOk (status : Nat) : Bool := decide (200 ≤ status ∧ status < 300)

/-- The `JSON.stringify({type: 'error', errorText: msg})` envelope built
by the cargeek-stream route error path. -/
def errorEnvelopeJson (msg : String) : String :=
  "\x7b\"type\":\"error\",\"errorText\":\"" ++ msg ++ "\"\x7d"

/-- Model of the cargeek-stream route `POST` (src/app/vehicle/page.tsx):
on an upstream 2xx it streams the transformed body with status 200 and
`text/event-stream`; a non-2xx upstream status throws
`Backend returned <status>` which the catch block converts into a
single synthetic error envelope plus `data: [DONE]`, still with status
200 (the `Response` constructor default) and `text/event-stream`. -/
def cargeekStreamRoute (upstreamStatus : Nat) (streamedBody : String) :
    HttpResponse :=
  if responseOk upstreamStatus then
    { status := 200, contentType := "text/event-stream", body := streamedBody }
  else
    { status := 200, contentType := "text/event-stream"
      body := "data: "
        ++ errorEnvelopeJson ("Backend returned " ++ toString upstreamStatus)
        ++ "\n\ndata: [DONE]\n\n" }

/-- Model of the vehicle-stream route `POST`
(src/app/api/vehicle-stream/route.ts): on an upstream 2xx it forwards
the stream with status 200 and `text/event-stream`; a non-2xx upstream
status throws, and the catch block returns a plain JSON error object
with status 500 and `Content-Type: application/json`. -/
def vehicleStreamRoute (upstreamStatus : Nat) (streamedBody : String) :
    HttpResponse :=
  if responseOk upstreamStatus then
    { status := 200, contentType := "text/event-stream", body := streamedBody }
  else
    { status := 500, contentType := "application/json"
      body := "\x7b\"error\":\"Vehicle stream failed\",\"details\":\"Backend returned "
        ++ toString upstreamStatus ++ "\"\x7d" }

/-- Model of `buffer.split('\n')`: JS `split` on a one-character
separator; never returns an empty array. -/
def splitNl : List Char → List (List Char)
  | [] => [[]]
  | c :: rest =>
    if c = '\n' then [] :: splitNl rest
    else
      match splitNl rest with
      | g :: gs => (c :: g) :: gs
      | [] => [[c]]

/-- Re-encoding of one forwarded line by the cargeek-stream transform:
`const data = line.slice(6); 'data: ' + data + '\n\n'`. -/
def emitDataLine (line : List Char) : List Char :=
  dataMarker ++ line.drop 6 ++ ('\n' :: '\n' :: [])

/-- The per-line body of the transform loop: forward `data: `-prefixed
lines re-encoded, drop everything else. -/
def transformLines (lines : List (List Char)) : List Char :=
  (lines.map (fun line =>
    if dataMarker.isPrefixOf line then emitDataLine line else [])).flatten

/-- One `transform(chunk)` call of the cargeek-stream `TransformStream`:
append the chunk to the carried buffer, split on newlines, keep the
final (possibly incomplete) line as the new buffer, and emit the
transformed complete lines.  State is `(buffer, output so far)`. -/
def transformOne (st : List Char × List Char) (chunk : List Char) :
    List Char × List Char :=
  let lines := splitNl (st.1 ++ chunk)
  (lines.getLastD [], st.2 ++ transformLines lines.dropLast)

/-- The `flush(controller)` callback: emit the leftover buffer followed
by two newlines when its trim is non-empty and it starts with
`data: `; otherwise emit nothing. -/
def flushOutput (buffer : List Char) : List Char :=
  if jsTrim buffer ≠ [] then
    (if dataMarker.isPrefixOf buffer then buffer ++ ('\n' :: '\n' :: []) else [])
  else []

/-- The whole transform stream applied to a chunked upstream byte
stream: fold `transform` over the chunks, then `flush`. -/
def transformStream (chunks : List (List Char)) : List Char :=
  let st := chunks.foldl transformOne ([], [])
  st.2 ++ flushOutput st.1

/-- Modelled from the claim text, for refinement against
`transformStream`: split the concatenated stream into lines; forward
each complete line beginning with `data: ` re-emitted as `data: ` plus
the unmodified body plus two newlines, drop every other complete line,
and flush the trailing (incomplete) line in the same re-emitted shape
exactly when it begins with `data: `. -/
def transformStreamSpec (chunks : List (List Char)) : List Char :=
  let lines := splitNl chunks.flatten
  transformLines lines.dropLast
    ++ (if dataMarker.isPrefixOf (lines.getLastD []) then
          emitDataLine (lines.getLastD []) else [])

/-- Sample stored payload used in concrete scenarios. -/
def payloadA : AgentResult := { agent_type := "listings", content := "A" }

/-- A second, different listings payload. -/
def payloadB : AgentResult := { agent_type := "listings", content := "B" }

/-- A research result payload. -/
def payloadR : AgentResult := { agent_type := "research", content := "R" }

/-- An aggregate with `research` and `media` in flight. -/
def aggTwoActive : AgentResults :=
  { listings := none, research := none, sentiment := none, media := none
    total_agents := 2, completed_agents := 0
    active_agents := ["research", "media"], last_updated := 3 }

/-- An aggregate whose listings slot is already populated. -/
def aggListingsSet : AgentResults :=
  { listings := some payloadA, research := none, sentiment := none, media := none
    total_agents := 1, completed_agents := 1
    active_agents := [], last_updated := 3 }

/-- An aggregate with `listings` already active (for the duplicate-spawn
scenario). -/
def aggListingsActive : AgentResults :=
  { listings := none, research := none, sentiment := none, media := none
    total_agents := 1, completed_agents := 0
    active_agents := ["listings"], last_updated := 3 }

/-- A failed completion event for the research agent, carrying a result. -/
def failedResearchComplete : AgentCompleteData :=
  { agent_type := "research", agent_id := "r1", success := false
    result := some payloadR }

/-- A successful listings completion carrying `payloadB`. -/
def successListingsB : AgentCompleteData :=
  { agent_type := "listings", agent_id := "l2", success := true
    result := some payloadB }

/-- A successful listings completion carrying `payloadA`. -/
def successListingsA : AgentCompleteData :=
  { agent_type := "listings", agent_id := "l1", success := true
    result := some payloadA }

/-- A snapshot carrying a fresh listings payload. -/
def snapshotWithB : CarGeekState :=
  { agent_data := [("listings", [{ data := some payloadB }])]
    active_agents := [] }

/-- The JSON body of an envelope with an unrecognized discriminant. -/
def bogusJson : List Char := ("\x7b\"type\":\"bogus\"\x7d").toList

/-- The envelope `JSON.parse` yields for `bogusJson`. -/
def bogusEnvelope : RawEnvelope :=
  { type := "bogus", payload := .otherInfo }

/-- A concrete `JSON.parse` model recognizing exactly `bogusJson`. -/
def jsonParseBogus (s : List Char) : Option RawEnvelope :=
  if s = bogusJson then some bogusEnvelope else none

/-- A `JSON.parse` model that fails on every input (for malformed
bodies). -/
def jsonParseNever (_ : List Char) : Option RawEnvelope := none

/-- The raw SSE line carrying the unrecognized-discriminant envelope. -/
def rawBogusLine : List Char := ("data: \x7b\"type\":\"bogus\"\x7d").toList

/-- C1 counterexample: a failed completion for an agent that is present
in `active_agents` leaves the aggregate untouched — the agent kind is
NOT removed from `active_agents`, contrary to the claim. -/
theorem agent_failure_not_removed_from_active :
    "research" ∈ aggTwoActive.active_agents ∧
    failedResearchComplete.success = false ∧
    (handleAgentComplete 5 failedResearchComplete aggTwoActive).1 = aggTwoActive ∧
    "research" ∈ (handleAgentComplete 5 failedResearchComplete aggTwoActive).1.active_agents := by
  decide

/-- C1 amended: a completion with `success = false` is an early return —
the whole aggregate (active agents, counters, all four slots,
timestamp) is unchanged and no notification fires. -/
theorem agent_failure_leaves_aggregate_unchanged (now : Nat)
    (e : AgentCompleteData) (s : AgentResults) (h : e.success = false) :
    handleAgentComplete now e s = (s, 0) := by
  unfold handleAgentComplete
  cases e.result with
  | none => rfl
  | some r => simp [h]

/-- Witness for the C1 amended theorem at a concrete failed completion. -/
theorem agent_failure_leaves_aggregate_unchanged_witness :
    handleAgentComplete 5 failedResearchComplete aggTwoActive = (aggTwoActive, 0) :=
  agent_failure_leaves_aggregate_unchanged 5 failedResearchComplete aggTwoActive (by decide)

/-- Storing a result whose kind differs from `k` leaves slot `k` alone. -/
theorem slotOf_storeResult_ne (r : AgentResult) (s : AgentResults)
    (k : String) (hk : k ∈ fourKinds) (hne : r.agent_type ≠ k) :
    slotOf (storeResult r s) k = slotOf s k := by
  simp only [fourKinds, List.mem_cons, List.mem_singleton, List.not_mem_nil, or_false] at hk
  unfold storeResult slotOf
  rcases hk with rfl | rfl | rfl | rfl <;> split_ifs <;> simp_all

/-- Storing a result whose kind is `k` populates slot `k` with it. -/
theorem slotOf_storeResult_eq (r : AgentResult) (s : AgentResults)
    (k : String) (hk : k ∈ fourKinds) (heq : r.agent_type = k) :
    slotOf (storeResult r s) k = some r := by
  simp only [fourKinds, List.mem_cons, List.mem_singleton, List.not_mem_nil, or_false] at hk
  unfold storeResult slotOf
  rcases hk with rfl | rfl | rfl | rfl <;> simp_all

/-- Payload slots only depend on the four slot fields. -/
theorem slotOf_congr (s1 s2 : AgentResults) (k : String)
    (h1 : s1.listings = s2.listings) (h2 : s1.research = s2.research)
    (h3 : s1.sentiment = s2.sentiment) (h4 : s1.media = s2.media) :
    slotOf s1 k = slotOf s2 k := by
  unfold slotOf
  split_ifs <;> simp [h1, h2, h3, h4]

/-- Shape of `handleAgentComplete` on a failed completion: an early
return. -/
theorem handleAgentComplete_failure (now : Nat) (d : AgentCompleteData)
    (s : AgentResults) (h : d.success = false) :
    handleAgentComplete now d s = (s, 0) := by
  unfold handleAgentComplete
  cases d.result with
  | none => rfl
  | some r => simp [h]

/-- Shape of `handleAgentComplete` on a successful completion carrying a
result: filter the active list, bump the counter, store the result,
stamp the timestamp, notify once. -/
theorem handleAgentComplete_success (now : Nat) (d : AgentCompleteData)
    (s : AgentResults) (r : AgentResult) (hr : d.result = some r)
    (hsucc : d.success = true) :
    handleAgentComplete now d s =
      ({ storeResult r { s with
            active_agents := s.active_agents.filter (fun a => a != d.agent_type)
            completed_agents := s.completed_agents + 1 } with
          last_updated := now }, 1) := by
  unfold handleAgentComplete
  rw [hr]
  simp [hsucc]

/-- C2 counterexample: a listings slot already populated with `payloadA`
is replaced by `payloadB` when a later successful listings completion
arrives — the new data is NOT discarded. -/
theorem populated_slot_overwritten_by_later_complete :
    aggListingsSet.listings = some payloadA ∧
    (handleAgentComplete 7 successListingsB aggListingsSet).1.listings = some payloadB ∧
    payloadB ≠ payloadA := by
  decide

/-- C2 amended: a populated slot is preserved by spawns and by
completions that are failed, resultless, or for another kind, but a
successful completion whose result carries the same kind REPLACES the
stored payload (last write wins). -/
theorem slot_stability_and_last_write_wins (now : Nat) (s : AgentResults)
    (k : String) (p : AgentResult) (hk : k ∈ fourKinds)
    (hs : slotOf s k = some p) :
    (∀ a, slotOf ((handleAgentSpawn now a s).1) k = some p)
    ∧ (∀ d, (d.success = false ∨ d.result = none ∨
          (∀ r, d.result = some r → r.agent_type ≠ k)) →
        slotOf ((handleAgentComplete now d s).1) k = some p)
    ∧ (∀ d r, d.success = true → d.result = some r → r.agent_type = k →
        slotOf ((handleAgentComplete now d s).1) k = some r) := by
  refine ⟨?_, ?_, ?_⟩
  · intro a
    unfold handleAgentSpawn
    have hk4 := hk
    simp only [fourKinds, List.mem_cons, List.mem_singleton, List.not_mem_nil,
      or_false] at hk4
    unfold slotOf at hs ⊢
    rcases hk4 with rfl | rfl | rfl | rfl <;> split_ifs <;> simp_all
  · intro d hd
    cases hr : d.result with
    | none =>
      unfold handleAgentComplete
      rw [hr]
      simpa using hs
    | some r =>
      rcases hd with hfail | hnone | hother
      · rw [handleAgentComplete_failure now d s hfail]
        simpa using hs
      · rw [hr] at hnone; exact absurd hnone (by simp)
      · have hne : r.agent_type ≠ k := hother r hr
        by_cases hsucc : d.success = true
        · rw [handleAgentComplete_success now d s r hr hsucc]
          calc slotOf ({ storeResult r { s with
                  active_agents := s.active_agents.filter (fun a => a != d.agent_type)
                  completed_agents := s.completed_agents + 1 } with
                last_updated := now }) k
              = slotOf (storeResult r { s with
                  active_agents := s.active_agents.filter (fun a => a != d.agent_type)
                  completed_agents := s.completed_agents + 1 }) k := by
                exact slotOf_congr _ _ k rfl rfl rfl rfl
            _ = slotOf { s with
                  active_agents := s.active_agents.filter (fun a => a != d.agent_type)
                  completed_agents := s.completed_agents + 1 } k := by
                exact slotOf_storeResult_ne r _ k hk hne
            _ = slotOf s k := slotOf_congr _ _ k rfl rfl rfl rfl
            _ = some p := hs
        · have hfail : d.success = false := by
            revert hsucc; cases d.success <;> simp
          rw [handleAgentComplete_failure now d s hfail]
          simpa using hs
  · intro d r hsucc hr hkind
    rw [handleAgentComplete_success now d s r hr hsucc]
    exact slotOf_storeResult_eq r _ k hk hkind

/-- Witness for the C2 amended theorem: a concrete overwrite of the
populated listings slot. -/
theorem slot_stability_and_last_write_wins_witness :
    slotOf ((handleAgentComplete 7 successListingsB aggListingsSet).1) "listings"
      = some payloadB :=
  (slot_stability_and_last_write_wins 7 aggListingsSet ("listings") payloadA
      (by decide) (by decide)).2.2 successListingsB payloadB rfl rfl rfl

/-- C3 counterexample: a duplicate `agent_spawn` (the kind is already
active, so the transition is a no-op on membership and counters) still
triggers one notification and rewrites `last_updated`. -/
theorem duplicate_spawn_notifies_and_touches_timestamp :
    "listings" ∈ aggListingsActive.active_agents ∧
    (handleAgentSpawn 5 ("listings") aggListingsActive).2 = 1 ∧
    (handleAgentSpawn 5 ("listings") aggListingsActive).1.last_updated
      ≠ aggListingsActive.last_updated := by
  decide

/-- C3 amended: null envelopes and failed/resultless completions cause
no notification and leave the aggregate unchanged, but every processed
spawn — duplicate or not — and every successful completion — slot
already populated or not — stamps `last_updated` and notifies exactly
once; snapshots produce no hub notification at all. -/
theorem notification_discipline (now : Nat) (env : Option AgentEvent)
    (s : AgentResults) :
    (env = none → processEnvelope now env s = (s, 0))
    ∧ (∀ d, env = some (.complete d) → (d.success = false ∨ d.result = none) →
        processEnvelope now env s = (s, 0))
    ∧ (∀ a, env = some (.spawn a) →
        (processEnvelope now env s).2 = 1
        ∧ (processEnvelope now env s).1.last_updated = now)
    ∧ (∀ d r, env = some (.complete d) → d.success = true → d.result = some r →
        (processEnvelope now env s).2 = 1
        ∧ (processEnvelope now env s).1.last_updated = now)
    ∧ (∀ st, env = some (.snapshot st) → (processEnvelope now env s).2 = 0) := by
  refine ⟨?_, ?_, ?_, ?_, ?_⟩
  · intro h; subst h; rfl
  · intro d h hd
    subst h
    show handleAgentComplete now d s = (s, 0)
    rcases hd with hfail | hnone
    · exact handleAgentComplete_failure now d s hfail
    · unfold handleAgentComplete
      rw [hnone]
  · intro a h
    subst h
    exact ⟨rfl, rfl⟩
  · intro d r h hsucc hr
    subst h
    show (handleAgentComplete now d s).2 = 1
      ∧ (handleAgentComplete now d s).1.last_updated = now
    rw [handleAgentComplete_success now d s r hr hsucc]
    exact ⟨rfl, rfl⟩
  · intro st h
    subst h
    rfl

/-- Witness for the C3 amended theorem: null envelope ignored, concrete
duplicate spawn notifies once. -/
theorem notification_discipline_witness :
    processEnvelope 7 none aggListingsActive = (aggListingsActive, 0)
    ∧ (processEnvelope 5 (some (AgentEvent.spawn ("listings"))) aggListingsActive).2 = 1 :=
  ⟨(notification_discipline 7 none aggListingsActive).1 rfl,
   ((notification_discipline 5 (some (AgentEvent.spawn ("listings")))
      aggListingsActive).2.2.1 ("listings") rfl).1⟩

/-- C7 counterexample: a line whose body is well-formed JSON with the
unrecognized discriminant `bogus` is returned as a decoded envelope,
not mapped to null by the decoder. -/
theorem unknown_discriminant_not_nulled :
    jsonParseBogus (stripDataMarker rawBogusLine) = some bogusEnvelope
    ∧ bogusEnvelope.type ∉ (["agent_spawn", "agent_complete", "state_snapshot"] : List String)
    ∧ parseStreamingEvent jsonParseBogus rawBogusLine = some bogusEnvelope := by
  decide

/-- C7 amended: once the body passes the empty/`[DONE]` screens the
decoder returns exactly what `JSON.parse` produced, with no
discriminant check; unrecognized discriminants are instead dropped by
the dispatch switch, so they still never mutate the aggregate or
notify. -/
theorem decoder_passthrough_and_dispatch_guard
    (jp : List Char → Option RawEnvelope) (raw : List Char) (now : Nat)
    (s : AgentResults) (env : RawEnvelope)
    (hne : ¬ (jsTrim (stripDataMarker raw) = []
              ∨ stripDataMarker raw = ("[DONE]").toList)) :
    parseStreamingEvent jp raw = jp (stripDataMarker raw)
    ∧ (parseStreamingEvent jp raw = some env →
        env.type ≠ "agent_spawn" → env.type ≠ "agent_complete" →
        dispatchStreamEvent now jp raw s = (s, 0)) := by
  constructor
  · unfold parseStreamingEvent
    rw [if_neg hne]
  · intro hp h1 h2
    unfold dispatchStreamEvent
    rw [hp]
    show processEnvelope now (envelopeToEvent env) s = (s, 0)
    unfold envelopeToEvent
    rw [if_neg h1, if_neg h2]
    rfl

/-- Witness for the C7 amended theorem: the `bogus` envelope passes the
decoder untouched and is then ignored by dispatch. -/
theorem decoder_passthrough_and_dispatch_guard_witness :
    parseStreamingEvent jsonParseBogus rawBogusLine
      = jsonParseBogus (stripDataMarker rawBogusLine)
    ∧ dispatchStreamEvent 4 jsonParseBogus rawBogusLine aggListingsSet
      = (aggListingsSet, 0) :=
  ⟨(decoder_passthrough_and_dispatch_guard jsonParseBogus rawBogusLine 4
      aggListingsSet bogusEnvelope (by decide)).1,
   (decoder_passthrough_and_dispatch_guard jsonParseBogus rawBogusLine 4
      aggListingsSet bogusEnvelope (by decide)).2 (by decide)
      (by decide) (by decide)⟩

/-- C8 confirmed: the decoder is total, and an empty or whitespace-only
body, the literal `[DONE]`, or a body on which `JSON.parse` fails all
yield `none`; a `none` decode leaves any aggregate untouched with no
notification through the dispatch path. -/
theorem decoder_null_on_noise (jp : List Char → Option RawEnvelope)
    (raw : List Char) (now : Nat) (s : AgentResults)
    (h : jsTrim (stripDataMarker raw) = []
         ∨ stripDataMarker raw = ("[DONE]").toList
         ∨ jp (stripDataMarker raw) = none) :
    parseStreamingEvent jp raw = none
    ∧ dispatchStreamEvent now jp raw s = (s, 0) := by
  have hp : parseStreamingEvent jp raw = none := by
    unfold parseStreamingEvent
    show (if jsTrim (stripDataMarker raw) = []
            ∨ stripDataMarker raw = ("[DONE]").toList then none
          else jp (stripDataMarker raw)) = none
    rcases h with h | h | h
    · rw [if_pos (Or.inl h)]
    · rw [if_pos (Or.inr h)]
    · split
      · rfl
      · exact h
  refine ⟨hp, ?_⟩
  unfold dispatchStreamEvent
  rw [hp]

/-- Witness for C8 at the spec's own test vector `data: not-json` with
a failing `JSON.parse`. -/
theorem decoder_null_on_noise_witness :
    parseStreamingEvent jsonParseNever (("data: not-json").toList) = none
    ∧ dispatchStreamEvent 3 jsonParseNever (("data: not-json").toList)
        aggListingsSet = (aggListingsSet, 0) :=
  decoder_null_on_noise jsonParseNever (("data: not-json").toList) 3
    aggListingsSet (Or.inr (Or.inr rfl))

/-- C9 counterexample: on an upstream 503 the vehicle-stream route
answers with a hard HTTP 500 JSON error, not a 200 stream-shaped
response. -/
theorem vehicle_route_hard_error_on_upstream_failure :
    responseOk 503 = false
    ∧ (vehicleStreamRoute 503 ("")).status = 500
    ∧ (vehicleStreamRoute 503 ("")).contentType = "application/json" := by
  decide

/-- C9 amended: on an upstream non-2xx the cargeek-stream route answers
HTTP 200 with `text/event-stream` and exactly one synthetic error
envelope followed by `data: [DONE]`, but the vehicle-stream route
answers HTTP 500 with `application/json`. -/
theorem proxy_error_paths (st : Nat) (body : String)
    (h : responseOk st = false) :
    cargeekStreamRoute st body =
      { status := 200, contentType := "text/event-stream"
        body := "data: "
          ++ errorEnvelopeJson ("Backend returned " ++ toString st)
          ++ "\n\ndata: [DONE]\n\n" }
    ∧ (vehicleStreamRoute st body).status = 500
    ∧ (vehicleStreamRoute st body).contentType = "application/json" := by
  unfold cargeekStreamRoute vehicleStreamRoute
  rw [h]
  exact ⟨rfl, rfl, rfl⟩

/-- Witness for the C9 amended theorem at upstream status 503. -/
theorem proxy_error_paths_witness :
    (vehicleStreamRoute 503 ("x")).status = 500
    ∧ (cargeekStreamRoute 503 ("x")).status = 200 :=
  ⟨(proxy_error_paths 503 ("x") (by decide)).2.1,
   by rw [(proxy_error_paths 503 ("x") (by decide)).1]⟩

/-- Unfolding of a one-step run. -/
theorem runEvents_cons (s : AgentResults) (te : Nat × AgentEvent)
    (evs : List (Nat × AgentEvent)) :
    runEvents s (te :: evs) = runEvents (applyEvent te.1 te.2 s) evs := rfl

/-- Shape of `handleAgentSpawn` when the kind is already active: only
the timestamp moves. -/
theorem handleAgentSpawn_mem (now : Nat) (a : String) (s : AgentResults)
    (h : a ∈ s.active_agents) :
    handleAgentSpawn now a s = ({ s with last_updated := now }, 1) := by
  unfold handleAgentSpawn
  rw [if_pos h]

/-- Shape of `handleAgentSpawn` on a fresh kind: append it and bump the
total. -/
theorem handleAgentSpawn_not_mem (now : Nat) (a : String) (s : AgentResults)
    (h : a ∉ s.active_agents) :
    handleAgentSpawn now a s =
      ({ s with active_agents := s.active_agents ++ [a], total_agents := s.total_agents + 1, last_updated := now }, 1) := by
  unfold handleAgentSpawn
  rw [if_neg h]

/-- Repeat spawns of an already-active kind change neither the active
list nor the total counter. -/
theorem runEvents_spawn_mem (k : String) (ts : List Nat) (s : AgentResults)
    (h : k ∈ s.active_agents) :
    (runEvents s (ts.map (fun t => (t, AgentEvent.spawn k)))).active_agents
        = s.active_agents
    ∧ (runEvents s (ts.map (fun t => (t, AgentEvent.spawn k)))).total_agents
        = s.total_agents := by
  induction ts generalizing s with
  | nil => exact ⟨rfl, rfl⟩
  | cons t ts ih =>
    simp only [List.map_cons]
    rw [runEvents_cons]
    have hst : applyEvent t (AgentEvent.spawn k) s = { s with last_updated := t } := by
      show (handleAgentSpawn t k s).1 = _
      rw [handleAgentSpawn_mem t k s h]
    rw [hst]
    exact ih { s with last_updated := t } h

/-- C5 confirmed: starting from an aggregate where the kind has not yet
been spawned, any non-empty sequence of spawns of that same kind leaves
it in `active_agents` exactly once and bumps `total_agents` exactly
once. -/
theorem spawn_idempotent (s : AgentResults) (k : String) (ts : List Nat)
    (hk : k ∉ s.active_agents) (hts : ts ≠ []) :
    (runEvents s (ts.map (fun t => (t, AgentEvent.spawn k)))).active_agents.count k = 1
    ∧ (runEvents s (ts.map (fun t => (t, AgentEvent.spawn k)))).total_agents
        = s.total_agents + 1 := by
  cases ts with
  | nil => exact absurd rfl hts
  | cons t ts =>
    simp only [List.map_cons]
    rw [runEvents_cons]
    have h1 : applyEvent t (AgentEvent.spawn k) s =
        { s with active_agents := s.active_agents ++ [k], total_agents := s.total_agents + 1, last_updated := t } := by
      show (handleAgentSpawn t k s).1 = _
      rw [handleAgentSpawn_not_mem t k s hk]
    rw [h1]
    have hmem : k ∈ ({ s with active_agents := s.active_agents ++ [k], total_agents := s.total_agents + 1, last_updated := t } : AgentResults).active_agents := by
      simp
    obtain ⟨ha, ht⟩ := runEvents_spawn_mem k ts _ hmem
    rw [ha, ht]
    refine ⟨?_, rfl⟩
    show (s.active_agents ++ [k]).count k = 1
    rw [List.count_append]
    rw [List.count_eq_zero.mpr hk]
    simp

/-- Witness for C5: three repeated listings spawns from the initial
aggregate. -/
theorem spawn_idempotent_witness :
    (runEvents (initialResults 0)
        (([1, 2, 3] : List Nat).map (fun t => (t, AgentEvent.spawn ("listings"))))).active_agents.count
        ("listings") = 1
    ∧ (runEvents (initialResults 0)
        (([1, 2, 3] : List Nat).map (fun t => (t, AgentEvent.spawn ("listings"))))).total_agents
        = (initialResults 0).total_agents + 1 :=
  spawn_idempotent (initialResults 0) ("listings") ([1, 2, 3])
    (by decide) (by decide)

/-- Storing a result never changes the counters or the active list. -/
theorem storeResult_meta (r : AgentResult) (s : AgentResults) :
    (storeResult r s).completed_agents = s.completed_agents
    ∧ (storeResult r s).active_agents = s.active_agents
    ∧ (storeResult r s).total_agents = s.total_agents := by
  unfold storeResult
  split_ifs <;> exact ⟨rfl, rfl, rfl⟩

/-- Filtering out a member strictly shrinks a list. -/
theorem length_filter_ne_lt (k : String) (l : List String) (h : k ∈ l) :
    (l.filter (fun a => a != k)).length < l.length := by
  induction l with
  | nil => cases h
  | cons a l ih =>
    simp only [List.filter_cons]
    by_cases hak : (a != k) = true
    · have hkl : k ∈ l := by
        rcases List.mem_cons.mp h with rfl | hmem
        · simp at hak
        · exact hmem
      rw [if_pos hak]
      simpa using Nat.succ_lt_succ (ih hkl)
    · rw [if_neg hak]
      exact Nat.lt_succ_of_le (List.length_filter_le _ l)

/-- One reducer step preserves the strengthened budget invariant
`completed + |active| ≤ total`, provided any successful completion
names a currently active kind. -/
theorem applyEvent_preserves_budget (t : Nat) (e : AgentEvent)
    (s : AgentResults) (hsafe : safeEvent s e = true)
    (hinv : s.completed_agents + s.active_agents.length ≤ s.total_agents) :
    (applyEvent t e s).completed_agents
      + (applyEvent t e s).active_agents.length
      ≤ (applyEvent t e s).total_agents := by
  cases e with
  | spawn a =>
    by_cases h : a ∈ s.active_agents
    · have hid : applyEvent t (AgentEvent.spawn a) s = { s with last_updated := t } := by
        show (handleAgentSpawn t a s).1 = _
        rw [handleAgentSpawn_mem t a s h]
      rw [hid]
      exact hinv
    · have hid : applyEvent t (AgentEvent.spawn a) s =
          { s with active_agents := s.active_agents ++ [a], total_agents := s.total_agents + 1, last_updated := t } := by
        show (handleAgentSpawn t a s).1 = _
        rw [handleAgentSpawn_not_mem t a s h]
      rw [hid]
      show s.completed_agents + (s.active_agents ++ [a]).length ≤ s.total_agents + 1
      rw [List.length_append]
      simp only [List.length_singleton]
      omega
  | complete d =>
    cases hr : d.result with
    | none =>
      have hid : applyEvent t (AgentEvent.complete d) s = s := by
        show (handleAgentComplete t d s).1 = _
        unfold handleAgentComplete
        rw [hr]
      rw [hid]
      exact hinv
    | some r =>
      by_cases hsucc : d.success = true
      · have hmem : d.agent_type ∈ s.active_agents := by
          simp only [safeEvent] at hsafe
          rw [hr] at hsafe
          simp [hsucc] at hsafe
          exact hsafe
        have hstep : applyEvent t (AgentEvent.complete d) s =
            { storeResult r { s with active_agents := s.active_agents.filter (fun a => a != d.agent_type), completed_agents := s.completed_agents + 1 } with last_updated := t } := by
          show (handleAgentComplete t d s).1 = _
          rw [handleAgentComplete_success t d s r hr hsucc]
        rw [hstep]
        obtain ⟨hc, ha, htot⟩ := storeResult_meta r
          { s with active_agents := s.active_agents.filter (fun a => a != d.agent_type), completed_agents := s.completed_agents + 1 }
        show (storeResult r _).completed_agents + (storeResult r _).active_agents.length
          ≤ (storeResult r _).total_agents
        rw [hc, ha, htot]
        have hlt := length_filter_ne_lt d.agent_type s.active_agents hmem
        show s.completed_agents + 1
          + (s.active_agents.filter (fun a => a != d.agent_type)).length
          ≤ s.total_agents
        omega
      · have hfail : d.success = false := by
          revert hsucc; cases d.success <;> simp
        have hid : applyEvent t (AgentEvent.complete d) s = s := by
          show (handleAgentComplete t d s).1 = _
          rw [handleAgentComplete_failure t d s hfail]
        rw [hid]
        exact hinv
  | snapshot st =>
    show (parseStateData t st).completed_agents
      + (parseStateData t st).active_agents.length
      ≤ (parseStateData t st).total_agents
    unfold parseStateData
    exact Nat.le_refl _

/-- Every prefix of a safe run preserves the budget invariant. -/
theorem runEvents_take_budget (evs : List (Nat × AgentEvent))
    (s : AgentResults) (hsafe : safeTrace s evs = true)
    (hinv : s.completed_agents + s.active_agents.length ≤ s.total_agents)
    (n : Nat) :
    (runEvents s (evs.take n)).completed_agents
      + (runEvents s (evs.take n)).active_agents.length
      ≤ (runEvents s (evs.take n)).total_agents := by
  induction evs generalizing s n with
  | nil =>
    cases n <;> exact hinv
  | cons te evs ih =>
    cases n with
    | zero => exact hinv
    | succ n =>
      rw [List.take_succ_cons, runEvents_cons]
      unfold safeTrace at hsafe
      rw [Bool.and_eq_true] at hsafe
      exact ih _ hsafe.2 (applyEvent_preserves_budget te.1 te.2 s hsafe.1 hinv) n

/-- C6 counterexample: a successful completion applied to the fresh
aggregate (no spawn ever happened) drives `completed_agents` above
`total_agents`. -/
theorem completion_without_spawn_breaks_invariant :
    ¬ ((runEvents (initialResults 0)
          [(1, AgentEvent.complete successListingsA)]).completed_agents
        ≤ (runEvents (initialResults 0)
          [(1, AgentEvent.complete successListingsA)]).total_agents) := by
  decide

/-- C6 amended: along any spawn/complete/snapshot trace from the empty
aggregate in which every successful completion names a currently active
agent kind, `completed_agents ≤ total_agents` holds in every
intermediate and final state. -/
theorem counters_invariant (t0 : Nat) (evs : List (Nat × AgentEvent))
    (h : safeTrace (initialResults t0) evs = true) (n : Nat) :
    (runEvents (initialResults t0) (evs.take n)).completed_agents
      ≤ (runEvents (initialResults t0) (evs.take n)).total_agents := by
  have hb := runEvents_take_budget evs (initialResults t0) h (by simp [initialResults]) n
  omega

/-- Witness for the C6 amended theorem on a spawn-then-complete trace. -/
theorem counters_invariant_witness :
    (runEvents (initialResults 0) (([(1, AgentEvent.spawn ("listings")),
        (2, AgentEvent.complete successListingsA)]).take 2)).completed_agents
      ≤ (runEvents (initialResults 0) (([(1, AgentEvent.spawn ("listings")),
        (2, AgentEvent.complete successListingsA)]).take 2)).total_agents :=
  counters_invariant 0 ([(1, AgentEvent.spawn ("listings")),
    (2, AgentEvent.complete successListingsA)]) (by decide) 2

/-- Snapshot storage for kind `k` is exactly `storeResult` of the
normalized payload tagged with `k`. -/
theorem storeSnapshotData_eq_storeResult (k : String) (d : AgentResult)
    (r : AgentResults) :
    storeSnapshotData k d r
      = storeResult { agent_type := k, content := d.content } r := by
  unfold storeSnapshotData storeResult parseListingsData parseResearchData
    parseSentimentData parseMediaData
  split_ifs <;> simp_all

/-- Equation for `applySnapshotEntry` when the latest item carries
data. -/
theorem applySnapshotEntry_some (r : AgentResults) (k : String)
    (items : List AgentDataItem) (d : AgentResult)
    (hlen : items.length > 0)
    (hdata : (items.getLastD { data := none }).data = some d) :
    applySnapshotEntry r k items =
      { storeSnapshotData k d r with
        completed_agents := (storeSnapshotData k d r).completed_agents + 1 } := by
  unfold applySnapshotEntry
  rw [if_pos hlen, hdata]

/-- Equation for `applySnapshotEntry` on a recognized kind whose latest
item has null data: the caught exception skips both slot and counter. -/
theorem applySnapshotEntry_none_known (r : AgentResults) (k : String)
    (items : List AgentDataItem) (hlen : items.length > 0)
    (hdata : (items.getLastD { data := none }).data = none)
    (hk : k ∈ fourKinds) :
    applySnapshotEntry r k items = r := by
  unfold applySnapshotEntry
  rw [if_pos hlen, hdata]
  exact if_pos hk

/-- Equation for `applySnapshotEntry` on an unrecognized kind whose
latest item has null data: no parse runs, so the counter still
advances. -/
theorem applySnapshotEntry_none_unknown (r : AgentResults) (k : String)
    (items : List AgentDataItem) (hlen : items.length > 0)
    (hdata : (items.getLastD { data := none }).data = none)
    (hk : k ∉ fourKinds) :
    applySnapshotEntry r k items
      = { r with completed_agents := r.completed_agents + 1 } := by
  unfold applySnapshotEntry
  rw [if_pos hlen, hdata]
  exact if_neg hk

/-- Equation for `applySnapshotEntry` on an empty item list. -/
theorem applySnapshotEntry_nil (r : AgentResults) (k : String)
    (items : List AgentDataItem) (hlen : ¬ items.length > 0) :
    applySnapshotEntry r k items = r := by
  unfold applySnapshotEntry
  exact if_neg hlen

/-- One snapshot entry never changes the active list. -/
theorem applySnapshotEntry_active (r : AgentResults) (k : String)
    (items : List AgentDataItem) :
    (applySnapshotEntry r k items).active_agents = r.active_agents := by
  by_cases hlen : items.length > 0
  · cases hdata : (items.getLastD { data := none }).data with
    | some d =>
      rw [applySnapshotEntry_some r k items d hlen hdata]
      show (storeSnapshotData k d r).active_agents = r.active_agents
      rw [storeSnapshotData_eq_storeResult]
      exact (storeResult_meta _ r).2.1
    | none =>
      by_cases hk : k ∈ fourKinds
      · rw [applySnapshotEntry_none_known r k items hlen hdata hk]
      · rw [applySnapshotEntry_none_unknown r k items hlen hdata hk]
  · rw [applySnapshotEntry_nil r k items hlen]

/-- Folding snapshot entries never changes the active list. -/
theorem snapshotFold_active (entries : List (String × List AgentDataItem))
    (r0 : AgentResults) :
    (entries.foldl (fun r pr => applySnapshotEntry r pr.1 pr.2) r0).active_agents
      = r0.active_agents := by
  induction entries generalizing r0 with
  | nil => rfl
  | cons pr entries ih =>
    rw [List.foldl_cons]
    rw [ih (applySnapshotEntry r0 pr.1 pr.2)]
    exact applySnapshotEntry_active r0 pr.1 pr.2

/-- The populated-slot count only depends on the four slot fields. -/
theorem countPopulated_congr (s1 s2 : AgentResults)
    (h1 : s1.listings = s2.listings) (h2 : s1.research = s2.research)
    (h3 : s1.sentiment = s2.sentiment) (h4 : s1.media = s2.media) :
    countPopulated s1 = countPopulated s2 := by
  unfold countPopulated
  rw [h1, h2, h3, h4]

/-- Storing a recognized result into an empty slot raises the
populated-slot count by one. -/
theorem storeResult_count (p : AgentResult) (s : AgentResults)
    (hk : p.agent_type ∈ fourKinds)
    (hempty : slotOf s p.agent_type = none) :
    countPopulated (storeResult p s) = countPopulated s + 1 := by
  simp only [fourKinds, List.mem_cons, List.mem_singleton, List.not_mem_nil,
    or_false] at hk
  rcases hk with h | h | h | h <;>
    (rw [h] at hempty
     unfold slotOf at hempty
     simp only [storeResult, countPopulated, h]
     simp_all) <;> omega

/-- One snapshot entry for kind `k` does not move another four-kind
slot `k'`. -/
theorem applySnapshotEntry_slot_ne (r : AgentResults) (k k' : String)
    (items : List AgentDataItem) (hk' : k' ∈ fourKinds) (hne : k ≠ k') :
    slotOf (applySnapshotEntry r k items) k' = slotOf r k' := by
  by_cases hlen : items.length > 0
  · cases hdata : (items.getLastD { data := none }).data with
    | some d =>
      rw [applySnapshotEntry_some r k items d hlen hdata]
      calc slotOf { storeSnapshotData k d r with
              completed_agents := (storeSnapshotData k d r).completed_agents + 1 } k'
          = slotOf (storeSnapshotData k d r) k' :=
            slotOf_congr _ _ k' rfl rfl rfl rfl
        _ = slotOf r k' := by
            rw [storeSnapshotData_eq_storeResult]
            exact slotOf_storeResult_ne _ r k' hk' hne
    | none =>
      by_cases hk : k ∈ fourKinds
      · rw [applySnapshotEntry_none_known r k items hlen hdata hk]
      · rw [applySnapshotEntry_none_unknown r k items hlen hdata hk]
        exact slotOf_congr _ _ k' rfl rfl rfl rfl
  · rw [applySnapshotEntry_nil r k items hlen]

/-- Local bookkeeping identity for one snapshot entry whose kind is
recognized and whose slot is still empty: the counter and the
populated-slot count move in lockstep. -/
theorem applySnapshotEntry_count (r : AgentResults) (k : String)
    (items : List AgentDataItem) (hk : k ∈ fourKinds)
    (hempty : slotOf r k = none) :
    (applySnapshotEntry r k items).completed_agents + countPopulated r
      = countPopulated (applySnapshotEntry r k items) + r.completed_agents := by
  by_cases hlen : items.length > 0
  · cases hdata : (items.getLastD { data := none }).data with
    | some d =>
      rw [applySnapshotEntry_some r k items d hlen hdata]
      have hcp : countPopulated { storeSnapshotData k d r with
            completed_agents := (storeSnapshotData k d r).completed_agents + 1 }
          = countPopulated r + 1 :=
        (countPopulated_congr { storeSnapshotData k d r with
            completed_agents := (storeSnapshotData k d r).completed_agents + 1 }
          (storeSnapshotData k d r) rfl rfl rfl rfl).trans
          (by rw [storeSnapshotData_eq_storeResult]
              exact storeResult_count _ r hk hempty)
      have hcc : ({ storeSnapshotData k d r with
            completed_agents := (storeSnapshotData k d r).completed_agents + 1 }
            : AgentResults).completed_agents = r.completed_agents + 1 := by
        show (storeSnapshotData k d r).completed_agents + 1 = r.completed_agents + 1
        rw [storeSnapshotData_eq_storeResult]
        rw [(storeResult_meta _ r).1]
      rw [hcp, hcc]
      omega
    | none =>
      rw [applySnapshotEntry_none_known r k items hlen hdata hk]
      omega
  · rw [applySnapshotEntry_nil r k items hlen]
    omega

/-- Folding snapshot entries with distinct four-kind keys over an
aggregate whose named slots are empty: `completed_agents` and the
populated-slot count advance identically. -/
theorem snapshotFold_count (entries : List (String × List AgentDataItem))
    (r0 : AgentResults)
    (hnd : (entries.map Prod.fst).Nodup)
    (hks : ∀ k ∈ entries.map Prod.fst, k ∈ fourKinds)
    (hempty : ∀ k ∈ entries.map Prod.fst, slotOf r0 k = none) :
    (entries.foldl (fun r pr => applySnapshotEntry r pr.1 pr.2) r0).completed_agents
        + countPopulated r0
      = countPopulated
          (entries.foldl (fun r pr => applySnapshotEntry r pr.1 pr.2) r0)
        + r0.completed_agents := by
  induction entries generalizing r0 with
  | nil =>
    simp only [List.foldl_nil]
    omega
  | cons pr entries ih =>
    rw [List.foldl_cons]
    have hk : pr.1 ∈ fourKinds := hks pr.1 (by simp)
    have he0 : slotOf r0 pr.1 = none := hempty pr.1 (by simp)
    have hstep := applySnapshotEntry_count r0 pr.1 pr.2 hk he0
    have hnd' : (entries.map Prod.fst).Nodup :=
      (List.nodup_cons.mp (by simpa using hnd)).2
    have hnotin : pr.1 ∉ entries.map Prod.fst :=
      (List.nodup_cons.mp (by simpa using hnd)).1
    have hks' : ∀ k ∈ entries.map Prod.fst, k ∈ fourKinds :=
      fun k hkmem => hks k (by simp [hkmem])
    have hempty' : ∀ k ∈ entries.map Prod.fst,
        slotOf (applySnapshotEntry r0 pr.1 pr.2) k = none := by
      intro k hkmem
      have hkne : pr.1 ≠ k := fun heq => hnotin (heq ▸ hkmem)
      rw [applySnapshotEntry_slot_ne r0 pr.1 k pr.2 (hks' k hkmem) hkne]
      exact hempty k (by simp [hkmem])
    have hrec := ih (applySnapshotEntry r0 pr.1 pr.2) hnd' hks' hempty'
    omega

/-- The projections of `parseStateData` in terms of the entry fold. -/
theorem parseStateData_proj (now : Nat) (st : CarGeekState) :
    (parseStateData now st).completed_agents = (snapshotFold now st).completed_agents
    ∧ (parseStateData now st).active_agents = (snapshotFold now st).active_agents
    ∧ (parseStateData now st).total_agents
        = (snapshotFold now st).completed_agents
          + (snapshotFold now st).active_agents.length
    ∧ countPopulated (parseStateData now st) = countPopulated (snapshotFold now st) :=
  ⟨rfl, rfl, rfl, countPopulated_congr _ _ rfl rfl rfl rfl⟩

/-- The entry fold leaves the wholesale-copied active list in place. -/
theorem snapshotFold_active_eq (now : Nat) (st : CarGeekState) :
    (snapshotFold now st).active_agents = st.active_agents := by
  unfold snapshotFold
  rw [snapshotFold_active st.agent_data (snapshotInit now st)]
  rfl

/-- The fresh snapshot aggregate has every slot empty. -/
theorem snapshotInit_slots (now : Nat) (st : CarGeekState) (k : String) :
    slotOf (snapshotInit now st) k = none := by
  unfold slotOf snapshotInit
  split_ifs <;> rfl

/-- C4 counterexample: a snapshot carrying a listings payload applied
to an aggregate whose listings slot is already populated REPLACES the
slot with the snapshot's payload instead of preserving the existing
one. -/
theorem snapshot_overwrites_populated_slot :
    aggListingsSet.listings = some payloadA
    ∧ (applyEvent 9 (AgentEvent.snapshot snapshotWithB) aggListingsSet).listings
        = some (parseListingsData payloadB)
    ∧ parseListingsData payloadB ≠ payloadA := by
  decide

/-- C4 amended: a snapshot rebuilds the aggregate from the snapshot
alone — the prior aggregate is ignored entirely (so an already
populated slot can be dropped or replaced, never preserved);
`active_agents` is replaced wholesale, `total_agents` equals
`completed_agents` plus the active count, and when the snapshot's
`agent_data` keys are distinct and drawn from the four kinds,
`completed_agents` equals the number of populated slots (with unknown
keys it also counts entries that populate no slot). -/
theorem snapshot_rebuild (now : Nat) (st : CarGeekState)
    (s s' : AgentResults)
    (hnd : (st.agent_data.map Prod.fst).Nodup)
    (hks : ∀ k ∈ st.agent_data.map Prod.fst, k ∈ fourKinds) :
    applyEvent now (AgentEvent.snapshot st) s
        = applyEvent now (AgentEvent.snapshot st) s'
    ∧ (applyEvent now (AgentEvent.snapshot st) s).active_agents
        = st.active_agents
    ∧ (applyEvent now (AgentEvent.snapshot st) s).total_agents
        = (applyEvent now (AgentEvent.snapshot st) s).completed_agents
          + st.active_agents.length
    ∧ (applyEvent now (AgentEvent.snapshot st) s).completed_agents
        = countPopulated (applyEvent now (AgentEvent.snapshot st) s) := by
  have hcount : (snapshotFold now st).completed_agents
        + countPopulated (snapshotInit now st)
      = countPopulated (snapshotFold now st)
        + (snapshotInit now st).completed_agents :=
    snapshotFold_count st.agent_data (snapshotInit now st) hnd hks
      (fun k _ => snapshotInit_slots now st k)
  obtain ⟨hc, ha, ht, hcp⟩ := parseStateData_proj now st
  refine ⟨rfl, ?_, ?_, ?_⟩
  · show (parseStateData now st).active_agents = st.active_agents
    rw [ha, snapshotFold_active_eq]
  · show (parseStateData now st).total_agents
      = (parseStateData now st).completed_agents + st.active_agents.length
    rw [ht, hc, snapshotFold_active_eq]
  · show (parseStateData now st).completed_agents
      = countPopulated (parseStateData now st)
    rw [hc, hcp]
    have hz : countPopulated (snapshotInit now st) = 0 := rfl
    have hz2 : (snapshotInit now st).completed_agents = 0 := rfl
    omega

/-- Witness for the C4 amended theorem on the concrete snapshot. -/
theorem snapshot_rebuild_witness :
    (applyEvent 9 (AgentEvent.snapshot snapshotWithB) aggListingsSet).completed_agents
      = countPopulated (applyEvent 9 (AgentEvent.snapshot snapshotWithB) aggListingsSet) :=
  (snapshot_rebuild 9 snapshotWithB aggListingsSet (initialResults 0)
    (by decide) (by decide)).2.2.2

/-- Splitting never yields the empty list of groups. -/
theorem splitNl_ne_nil (s : List Char) : splitNl s ≠ [] := by
  cases s with
  | nil => simp [splitNl]
  | cons c rest =>
    unfold splitNl
    split
    · simp
    · split <;> simp

/-- Recursion equation for `splitNl` in `modifyHead` form. -/
theorem splitNl_cons (c : Char) (s : List Char) :
    splitNl (c :: s) =
      if c = '\n' then [] :: splitNl s
      else (splitNl s).modifyHead (fun g => c :: g) := by
  rw [splitNl]
  by_cases hc : c = '\n'
  · rw [if_pos hc, if_pos hc]
  · rw [if_neg hc, if_neg hc]
    cases hs : splitNl s with
    | nil => exact absurd hs (splitNl_ne_nil s)
    | cons g gs => rw [List.modifyHead_cons]

/-- Every group produced by `splitNl` is newline-free. -/
theorem no_newline_of_mem_splitNl (s : List Char) (g : List Char)
    (hg : g ∈ splitNl s) : '\n' ∉ g := by
  induction s generalizing g with
  | nil =>
    simp only [splitNl, List.mem_singleton] at hg
    subst hg
    simp
  | cons c rest ih =>
    rw [splitNl_cons] at hg
    by_cases hc : c = '\n'
    · rw [if_pos hc] at hg
      rcases List.mem_cons.mp hg with rfl | hmem
      · simp
      · exact ih g hmem
    · rw [if_neg hc] at hg
      cases hs : splitNl rest with
      | nil => exact absurd hs (splitNl_ne_nil rest)
      | cons g0 gs =>
        rw [hs] at hg
        rcases List.mem_cons.mp hg with rfl | hmem
        · intro hin
          rcases List.mem_cons.mp hin with heq | hin0
          · exact hc heq.symm
          · exact ih g0 (hs ▸ List.mem_cons_self g0 gs) hin0
        · exact ih g (hs ▸ List.mem_cons.mpr (Or.inr hmem))

/-- A newline-free string is one single group. -/
theorem splitNl_single (s : List Char) (h : '\n' ∉ s) : splitNl s = [s] := by
  induction s with
  | nil => rfl
  | cons c rest ih =>
    have hc : ¬ c = '\n' := fun heq => h (heq ▸ List.mem_cons_self c rest)
    have hrest : '\n' ∉ rest := fun hmem => h (List.mem_cons.mpr (Or.inr hmem))
    rw [splitNl_cons, if_neg hc, ih hrest]
    rfl

/-- The last-group default is irrelevant for a non-empty group list. -/
theorem getLastD_irrel (l : List (List Char)) (h : l ≠ [])
    (d d' : List Char) : l.getLastD d = l.getLastD d' := by
  cases l with
  | nil => exact absurd rfl h
  | cons x l => rfl

/-- `dropLast` distributes over `cons` for a non-empty tail. -/
theorem dropLast_cons_ne (x : List Char) (l : List (List Char))
    (h : l ≠ []) : (x :: l).dropLast = x :: l.dropLast :=
  List.dropLast_cons_of_ne_nil h

/-- The last group of a concatenation with non-empty right part. -/
theorem getLastD_append_ne (l1 l2 : List (List Char)) (h : l2 ≠ [])
    (d : List Char) : (l1 ++ l2).getLastD d = l2.getLastD d := by
  induction l1 with
  | nil => rfl
  | cons x l1 ih =>
    rw [List.cons_append]
    have hne : l1 ++ l2 ≠ [] := fun heq => by
      rcases List.append_eq_nil.mp heq with ⟨-, h2⟩
      exact h h2
    calc ((x :: (l1 ++ l2))).getLastD d = (l1 ++ l2).getLastD x :=
        List.getLastD_cons d x (l1 ++ l2)
      _ = (l1 ++ l2).getLastD d := getLastD_irrel _ hne x d
      _ = l2.getLastD d := ih

/-- `dropLast` of a concatenation with non-empty right part. -/
theorem dropLast_append_ne (l1 l2 : List (List Char)) (h : l2 ≠ []) :
    (l1 ++ l2).dropLast = l1 ++ l2.dropLast :=
  List.dropLast_append_of_ne_nil l1 h

/-- `modifyHead` keeps a group list non-empty. -/
theorem modifyHead_ne_nil (f : List Char → List Char)
    (l : List (List Char)) (h : l ≠ []) : l.modifyHead f ≠ [] := by
  cases l with
  | nil => exact absurd rfl h
  | cons x l => simp

/-- The last group survives `getLastD` as a member. -/
theorem getLastD_mem (l : List (List Char)) (h : l ≠ []) (d : List Char) :
    l.getLastD d ∈ l := by
  induction l generalizing d with
  | nil => exact absurd rfl h
  | cons x l ih =>
    cases l with
    | nil => exact List.mem_singleton.mpr rfl
    | cons y l =>
      rw [List.getLastD_cons]
      exact List.mem_cons.mpr (Or.inr (ih (by simp) x))

/-- Key splitting identity: splitting a concatenation glues the last
group of the left part onto the first group of the right part. -/
theorem splitNl_append (a b : List Char) :
    splitNl (a ++ b) =
      (splitNl a).dropLast
        ++ (splitNl b).modifyHead (fun g => (splitNl a).getLastD [] ++ g) := by
  induction a with
  | nil =>
    cases hb : splitNl b with
    | nil => exact absurd hb (splitNl_ne_nil b)
    | cons g gs =>
      rw [List.nil_append, hb]
      simp [splitNl]
  | cons c a ih =>
    rw [List.cons_append, splitNl_cons, splitNl_cons c a]
    by_cases hc : c = '\n'
    · rw [if_pos hc, if_pos hc, ih]
      rw [dropLast_cons_ne [] (splitNl a) (splitNl_ne_nil a)]
      rw [List.getLastD_cons, List.cons_append]
    · rw [if_neg hc, if_neg hc, ih]
      cases ha : splitNl a with
      | nil => exact absurd ha (splitNl_ne_nil a)
      | cons g0 gs =>
        cases gs with
        | nil =>
          cases hb : splitNl b with
          | nil => exact absurd hb (splitNl_ne_nil b)
          | cons h0 hs =>
            simp only [List.dropLast_single, List.getLastD_cons,
              List.getLastD_nil, List.modifyHead_cons, List.nil_append,
              List.cons_append]
        | cons g1 gs =>
          simp only [List.dropLast_cons₂, List.getLastD_cons,
            List.modifyHead_cons, List.cons_append]

/-- The per-line transform distributes over group concatenation. -/
theorem transformLines_append (xs ys : List (List Char)) :
    transformLines (xs ++ ys) = transformLines xs ++ transformLines ys := by
  unfold transformLines
  rw [List.map_append, List.flatten_append]

/-- Folding the chunked transform equals processing the concatenated
stream: the carried buffer is always the (incomplete) last line, the
output the transform of the complete lines. -/
theorem transform_fold (chunks : List (List Char)) (buf0 out0 : List Char)
    (hb : '\n' ∉ buf0) :
    chunks.foldl transformOne (buf0, out0)
      = ((splitNl (buf0 ++ chunks.flatten)).getLastD [],
         out0 ++ transformLines (splitNl (buf0 ++ chunks.flatten)).dropLast) := by
  induction chunks generalizing buf0 out0 with
  | nil =>
    simp only [List.foldl_nil, List.flatten_nil, List.append_nil]
    rw [splitNl_single buf0 hb]
    simp [transformLines]
  | cons c cs ih =>
    rw [List.foldl_cons]
    have hstep : transformOne (buf0, out0) c
        = ((splitNl (buf0 ++ c)).getLastD [],
           out0 ++ transformLines (splitNl (buf0 ++ c)).dropLast) := rfl
    rw [hstep]
    have hb1 : '\n' ∉ (splitNl (buf0 ++ c)).getLastD [] :=
      no_newline_of_mem_splitNl (buf0 ++ c) _
        (getLastD_mem _ (splitNl_ne_nil _) [])
    rw [ih ((splitNl (buf0 ++ c)).getLastD [])
      (out0 ++ transformLines (splitNl (buf0 ++ c)).dropLast) hb1]
    have hsplit : splitNl (buf0 ++ (c :: cs).flatten)
        = (splitNl (buf0 ++ c)).dropLast
          ++ splitNl (((splitNl (buf0 ++ c)).getLastD []) ++ cs.flatten) := by
      rw [List.flatten_cons, ← List.append_assoc,
        splitNl_append (buf0 ++ c) cs.flatten,
        splitNl_append ((splitNl (buf0 ++ c)).getLastD []) cs.flatten,
        splitNl_single _ hb1]
      rfl
    rw [hsplit]
    rw [getLastD_append_ne (splitNl (buf0 ++ c)).dropLast
      (splitNl (((splitNl (buf0 ++ c)).getLastD []) ++ cs.flatten))
      (splitNl_ne_nil _) []]
    rw [dropLast_append_ne (splitNl (buf0 ++ c)).dropLast
      (splitNl (((splitNl (buf0 ++ c)).getLastD []) ++ cs.flatten))
      (splitNl_ne_nil _)]
    rw [transformLines_append, List.append_assoc]

/-- A boolean prefix decomposes the list. -/
theorem isPrefixOf_decomp (p l : List Char) (h : p.isPrefixOf l = true) :
    l = p ++ l.drop p.length := by
  induction p generalizing l with
  | nil => simp
  | cons x p ih =>
    cases l with
    | nil => simp at h
    | cons y l =>
      rw [List.isPrefixOf_cons₂] at h
      rcases Bool.and_eq_true_iff.mp h with ⟨hxy, hrest⟩
      have hxy' : x = y := by simpa using hxy
      subst hxy'
      rw [List.cons_append, List.length_cons, List.drop_succ_cons]
      rw [← ih l hrest]

/-- A member that fails the predicate survives `dropWhile`. -/
theorem mem_dropWhile_of_neg (c : Char) (l : List Char)
    (hc : jsWs c = false) (hmem : c ∈ l) : c ∈ l.dropWhile jsWs := by
  induction l with
  | nil => cases hmem
  | cons a l ih =>
    by_cases ha : jsWs a = true
    · rw [List.dropWhile_cons_of_pos ha]
      rcases List.mem_cons.mp hmem with rfl | hmem
      · rw [hc] at ha; cases ha
      · exact ih hmem
    · rw [List.dropWhile_cons_of_neg ha]
      exact hmem

/-- A string containing a non-whitespace character has a non-empty
trim. -/
theorem jsTrim_ne_nil (c : Char) (s : List Char) (hc : jsWs c = false)
    (hmem : c ∈ s) : jsTrim s ≠ [] := by
  unfold jsTrim
  intro heq
  have h1 : c ∈ s.dropWhile jsWs := mem_dropWhile_of_neg c s hc hmem
  have h2 : c ∈ (s.dropWhile jsWs).reverse := List.mem_reverse.mpr h1
  have h3 : c ∈ (s.dropWhile jsWs).reverse.dropWhile jsWs :=
    mem_dropWhile_of_neg c _ hc h2
  have h4 : c ∈ ((s.dropWhile jsWs).reverse.dropWhile jsWs).reverse :=
    List.mem_reverse.mpr h3
  rw [heq] at h4
  cases h4

/-- The flush condition collapses to the prefix test: a buffered line
that starts with `data: ` always has a non-empty trim, so `flush` emits
it (with the terminating blank line) exactly when it carries the
marker. -/
theorem flushOutput_eq (l : List Char) :
    flushOutput l =
      if dataMarker.isPrefixOf l then l ++ ('\n' :: '\n' :: []) else [] := by
  by_cases hpref : dataMarker.isPrefixOf l = true
  · have hdec : l = dataMarker ++ l.drop 6 := isPrefixOf_decomp dataMarker l hpref
    have hmem : 'd' ∈ l := by
      rw [hdec]
      exact List.mem_cons_self 'd' _
    have htrim : jsTrim l ≠ [] := jsTrim_ne_nil 'd' l rfl hmem
    unfold flushOutput
    rw [if_pos htrim, if_pos hpref]
  · unfold flushOutput
    rw [if_neg hpref]
    by_cases htrim : jsTrim l ≠ []
    · rw [if_pos htrim]
    · rw [if_neg htrim]

/-- C10 confirmed: the chat-stream proxy transform forwards exactly the
complete `data: `-prefixed lines, re-encoded as `data: ` plus the
unmodified body plus two newlines, drops every other complete line,
buffers the incomplete trailing line across chunk boundaries, and at
end of stream flushes it in the same shape exactly when it begins with
`data: ` — i.e. the chunked transform refines the line-by-line
specification of the concatenated stream. -/
theorem transform_forwards_only_data_lines (chunks : List (List Char)) :
    transformStream chunks = transformStreamSpec chunks := by
  unfold transformStream transformStreamSpec
  show (chunks.foldl transformOne ([], [])).2
      ++ flushOutput (chunks.foldl transformOne ([], [])).1
    = transformLines (splitNl chunks.flatten).dropLast
      ++ (if dataMarker.isPrefixOf ((splitNl chunks.flatten).getLastD []) then
            emitDataLine ((splitNl chunks.flatten).getLastD []) else [])
  rw [transform_fold chunks [] [] (by simp)]
  show transformLines (splitNl ([] ++ chunks.flatten)).dropLast
      ++ flushOutput ((splitNl ([] ++ chunks.flatten)).getLastD []) = _
  simp only [List.nil_append]
  rw [flushOutput_eq]
  by_cases hpref :
      dataMarker.isPrefixOf ((splitNl chunks.flatten).getLastD []) = true
  · rw [if_pos hpref, if_pos hpref]
    have hdec := isPrefixOf_decomp dataMarker
      ((splitNl chunks.flatten).getLastD []) hpref
    have h6 : dataMarker.length = 6 := rfl
    rw [h6] at hdec
    unfold emitDataLine
    conv_lhs => rw [hdec]
  · rw [if_neg hpref, if_neg hpref]

end CargeekFrontend
